import Mathlib

/-!
Shallow embedding of the `glog` structured-logging library (Go) in Lean 4.

The embedding models:
  * the severity level table (`getLevel`, the custom level constants);
  * the variadic argument pairing algorithm (`argsToAttr`, `argsToAttrSlice`);
  * error extraction and enrichment on the `Error` emission path
    (`findError`, cause-chain walking, `error_code` / `root_error` /
    `error` / `stack` field appending) and the `Fatal` path;
  * the focus-filter subsystem (`FocusState`, `isFocused`,
    `FocusFilterHandler.Handle`);
  * the logger registry (`GetLogger` memoization, `Focus` / `Unfocus`
    re-propagation, `WithLevel` / `WithLoggerType` locality).

Go maps from string keys are modelled as association lists / membership
lists; pointer identity of logger instances is modelled by an allocation
counter (`id`); `os.Exit` is modelled as an explicit effect marker.
-/

namespace Glog

/-! ### Severity levels (types.go, handler_color_console.go) -/

/-- `slog.LevelDebug = -4`. -/
def LevelDebug : Int := -4
/-- `slog.LevelInfo = 0`. -/
def LevelInfo : Int := 0
/-- `slog.LevelWarn = 4`. -/
def LevelWarn : Int := 4
/-- `slog.LevelError = 8`. -/
def LevelError : Int := 8
/-- `LevelTrace = slog.Level(-8)` (types.go). -/
def LevelTrace : Int := -8
/-- `LevelFatal = slog.Level(20)` (types.go). -/
def LevelFatal : Int := 20
/-- `LevelSuccess = slog.Level(6)` (handler_color_console.go revision). -/
def LevelSuccess : Int := 6

/-- Severity-name constants (types.go): `Info = "INFO"` etc. -/
def DefaultLogLevel : String := "INFO"

/-- `strings.ToUpper` as used on level names: character-wise ASCII
uppercasing (all names compared against are plain ASCII). -/
def goToUpper (s : String) : String := ⟨s.data.map Char.toUpper⟩

/-- `getLevel`: resolve a severity name to a rank, case-insensitively,
defaulting to info on unrecognized names. -/
def getLevel (l : String) : Int :=
  let u := goToUpper l
  if u = "ERROR" then LevelError
  else if u = "WARN" then LevelWarn
  else if u = "INFO" then LevelInfo
  else if u = "DEBUG" then LevelDebug
  else if u = "TRACE" then LevelTrace
  else LevelInfo

/-- The names `getLevel` recognizes (after uppercasing). -/
def knownLevelNames : List String := ["ERROR", "WARN", "INFO", "DEBUG", "TRACE"]

/-- A handler configured with minimum rank `minLevel` admits a record of
rank `r` iff `r >= minLevel` (the `Enabled` check of the sink handlers). -/
def levelEnabled (minLevel r : Int) : Bool := minLevel ≤ r

/-! ### Errors (Go `error` values with optional wrapping and `coder`) -/

/-- A Go error value: `base` has no wrapped cause (`errors.Unwrap` returns
nil), `wrap` wraps a cause. `code` is `some c` when the dynamic type
implements the `coder` interface (`Code() string`). `id` distinguishes
error values. -/
inductive GoError where
  | base (id : Nat) (code : Option String)
  | wrap (id : Nat) (code : Option String) (cause : GoError)
deriving DecidableEq, Repr

/-- `errors.Unwrap`. -/
def GoError.unwrap : GoError → Option GoError
  | .base _ _ => none
  | .wrap _ _ c => some c

/-- The `coder` type assertion: the code when the error implements it. -/
def GoError.getCode : GoError → Option String
  | .base _ c => c
  | .wrap _ c _ => c

/-- The root-cause walk in `BaseLogger.Error`: follow `errors.Unwrap`
until it returns nil. -/
def rootCause : GoError → GoError
  | .base i c => .base i c
  | .wrap _ _ cause => rootCause cause

/-! ### Dynamically-typed argument values (`any` in Go) -/

/-- A value passed in a variadic `args ...any` list: a string, an error,
a pre-built `slog.Attr` (key plus value), or some other opaque value. -/
inductive GoVal where
  | str (s : String)
  | err (e : GoError)
  | attrVal (key : String) (value : GoVal)
  | other (n : Nat)
deriving DecidableEq, Repr

/-- Whether a value is an error (the `args[i].(error)` type assertion). -/
def GoVal.isErr : GoVal → Bool
  | .err _ => true
  | _ => false

/-- Whether a value is a pre-built attribute. -/
def GoVal.isAttr : GoVal → Bool
  | .attrVal _ _ => true
  | _ => false

/-! ### Argument pairing (args.go) -/

/-- `const badKey = "!BADKEY"`. -/
def badKey : String := "!BADKEY"

/-- `argsToAttr`: consume one attribute from the front of a non-empty
argument list (head split off as `a`). A string followed by a value makes
a named field consuming both; a lone trailing string becomes a bad-key
field; a pre-built attribute passes through; anything else becomes a
bad-key field consuming one argument. -/
def argsToAttr : GoVal → List GoVal → GoVal × List GoVal
  | .str s, [] => (.attrVal badKey (.str s), [])
  | .str s, v :: rest => (.attrVal s v, rest)
  | .attrVal k v, rest => (.attrVal k v, rest)
  | v, rest => (.attrVal badKey v, rest)

/-- `argsToAttrSlice`: repeatedly apply `argsToAttr` until the argument
list is consumed. -/
def argsToAttrSlice : List GoVal → List GoVal
  | [] => []
  | .str s :: [] => [.attrVal badKey (.str s)]
  | .str s :: v :: rest => .attrVal s v :: argsToAttrSlice rest
  | .attrVal k v :: rest => .attrVal k v :: argsToAttrSlice rest
  | .err e :: rest => .attrVal badKey (.err e) :: argsToAttrSlice rest
  | .other n :: rest => .attrVal badKey (.other n) :: argsToAttrSlice rest

/-! ### Error extraction (`findError`) -/

/-- The loop of `findError`, with the accumulated `errFound` made
explicit. A consecutive pair `("error", e)` with `e` an error is kept in
`remaining` untouched; otherwise the first bare error (while `errFound`
is still nil) is extracted and removed; everything else is appended to
`remaining` in order. -/
def findErrorLoop : List GoVal → Option GoError → Option GoError × List GoVal
  | [], found => (found, [])
  | .str s :: .err e :: rest, found =>
      if s = "error" then
        let p := findErrorLoop rest found
        (p.1, .str s :: .err e :: p.2)
      else
        let p := findErrorLoop (.err e :: rest) found
        (p.1, .str s :: p.2)
  | .err e :: rest, found =>
      match found with
      | none => findErrorLoop rest (some e)
      | some f =>
          let p := findErrorLoop rest (some f)
          (p.1, .err e :: p.2)
  | a :: rest, found =>
      let p := findErrorLoop rest found
      (p.1, a :: p.2)

/-- `findError(args) -> (errFound, remaining)`. -/
def findError (args : List GoVal) : Option GoError × List GoVal :=
  findErrorLoop args none

/-! ### The Error / Fatal emission path (BaseLogger.Error, BaseLogger.Fatal) -/

/-- A call handed to `c.logger.Log(ctx, level, msg, args...)`. -/
structure LogCall where
  level : Int
  msg : String
  args : List GoVal
deriving DecidableEq, Repr

/-- `BaseLogger.Error`: extract a bare error from the arguments; if none,
log the remaining arguments at the error rank; otherwise append the
`error_code` field (when the error implements `coder`), the `root_error`
field (when the root of the cause chain differs from the error), the
`error` field, and the `stack` field, then log. The captured stack trace
is passed in as an opaque string. -/
def ErrorCall (msg stack : String) (args : List GoVal) : LogCall :=
  let p := findError args
  match p.1 with
  | none => ⟨LevelError, msg, p.2⟩
  | some err =>
      let dargs := p.2
      let dargs := match err.getCode with
        | some c => dargs ++ [.attrVal "error_code" (.str c)]
        | none => dargs
      let root := rootCause err
      let dargs := if root ≠ err
        then dargs ++ [.attrVal "root_error" (.err root)]
        else dargs
      let dargs := dargs ++ [.attrVal "error" (.err err)]
      let dargs := dargs ++ [.attrVal "stack" (.str stack)]
      ⟨LevelError, msg, dargs⟩

/-- An externally observable effect of an emit operation: a record handed
to the sink, or process termination (`os.Exit`). -/
inductive Effect where
  | log (c : LogCall)
  | exit (code : Nat)
deriving DecidableEq, Repr

/-- The effects of `BaseLogger.Error`: one record handed to the sink. -/
def ErrorEffects (msg stack : String) (args : List GoVal) : List Effect :=
  [.log (ErrorCall msg stack args)]

/-- `BaseLogger.Fatal`: `c.Error(msg, args...)` followed by `os.Exit(1)`. -/
def FatalEffects (msg stack : String) (args : List GoVal) : List Effect :=
  ErrorEffects msg stack args ++ [.exit 1]

/-! ### Focus state and the focus predicate -/

/-- The registry-wide focus state: the `focused` flag and the set of
allowed names (`focusMap`, a Go `map[string]bool` whose stored values are
all `true`; membership is the lookup). -/
structure FocusState where
  focused : Bool
  focusMap : List String
deriving DecidableEq, Repr

/-- `BaseLogger.isFocused` for a logger named `name`: if the root is not
focused, every logger passes; otherwise `root.focusMap[c.name]` (missing
key reads as false). -/
def isFocused (fs : FocusState) (name : String) : Bool :=
  if !fs.focused then true
  else fs.focusMap.contains name

/-- A log record as seen by a handler. -/
structure LogRecord where
  level : Int
  msg : String
deriving DecidableEq, Repr

/-- Result of `FocusFilterHandler.Handle`: the returned error (`none` is
success) and whether the record was forwarded to the inner handler. -/
structure HandleResult where
  err : Option String
  forwarded : Bool
deriving DecidableEq, Repr

/-- `FocusFilterHandler.Handle`: if the attached logger is not focused,
return nil without forwarding; otherwise forward to the inner handler
(modelled as a function from records to an optional error). -/
def FocusFilterHandler.Handle (fs : FocusState) (loggerName : String)
    (inner : LogRecord → Option String) (r : LogRecord) : HandleResult :=
  if !(isFocused fs loggerName) then ⟨none, false⟩
  else ⟨inner r, true⟩

/-- `FocusFilterHandler.Enabled`: short-circuit on the inner handler's
enabled check, then apply the focus predicate. -/
def FocusFilterHandler.Enabled (fs : FocusState) (loggerName : String)
    (innerEnabled : Bool) : Bool :=
  if !innerEnabled then false
  else isFocused fs loggerName

/-! ### The logger registry (BaseLogger as registry owner) -/

/-- The sink handler selected by `configureLogger`'s switch on
`c.loggerType`. -/
inductive HandlerKind where
  | text
  | color
  | json
deriving DecidableEq, Repr

def LoggerTypeConsole : String := "console"
def LoggerTypePretty : String := "pretty"
def LoggerTypeJSON : String := "json"

/-- The decorator chain built by `configureLogger` and stored in
`c.logger`: the resolved minimum rank, the source flag, the selected sink
handler, and the `logger=<name>` attribute layer (present iff the name is
non-empty). The focus-filter layer is always present and reads the live
registry state at emit time, so it carries no data of its own here. -/
structure Chain where
  levelRank : Int
  addSource : Bool
  handlerKind : HandlerKind
  nameAttr : Option String
deriving DecidableEq, Repr

/-- One `BaseLogger` instance: its allocation identity (`id`, standing in
for pointer identity), its own settings, and its built chain. -/
structure LoggerState where
  id : Nat
  name : String
  level : String
  addSource : Bool
  loggerType : String
  chain : Chain
deriving DecidableEq, Repr

/-- The chain `configureLogger` builds from the receiver's settings. -/
def configureChain (name level : String) (addSource : Bool)
    (loggerType : String) : Chain :=
  { levelRank := getLevel level
    addSource := addSource
    handlerKind :=
      if loggerType = LoggerTypeConsole then .text
      else if loggerType = LoggerTypePretty then .color
      else if loggerType = LoggerTypeJSON then .json
      else .json
    nameAttr := if name ≠ "" then some name else none }

/-- `configureLogger`: rebuild the receiver's own chain from its own
settings. -/
def configureLogger (st : LoggerState) : LoggerState :=
  { st with chain := configureChain st.name st.level st.addSource st.loggerType }

/-- The registry owned by the root logger: focus state, the name-to-child
map (an association list standing in for the Go map), the root logger's
own state, and the allocation counter for instance identity. -/
structure Registry where
  focus : FocusState
  rootLogger : LoggerState
  loggers : List (String × LoggerState)
  nextId : Nat
deriving DecidableEq, Repr

/-- `NewLogger()` with no options: root logger with empty name, level
`DefaultLogLevel`, `addSource = true`, zero-value logger type (the
`configureLogger` switch falls to the JSON default), empty child map,
focus disabled. -/
def NewLoggerDefault : Registry :=
  { focus := ⟨false, []⟩
    rootLogger := configureLogger
      { id := 0, name := "", level := DefaultLogLevel, addSource := true
        loggerType := "", chain := ⟨0, true, .json, none⟩ }
    loggers := []
    nextId := 1 }

/-- `BaseLogger.GetLogger(name)` called with receiver settings `caller`
(the receiver is the root or any child sharing the root's registry): if
`name` is registered, return the existing instance and leave the registry
unchanged; otherwise construct a new logger inheriting the caller's
level, source flag and logger type, configure it, and register it. -/
def GetLogger (reg : Registry) (caller : LoggerState) (name : String) :
    LoggerState × Registry :=
  match reg.loggers.lookup name with
  | some out => (out, reg)
  | none =>
      let out := configureLogger
        { id := reg.nextId, name := name, level := caller.level
          addSource := caller.addSource, loggerType := caller.loggerType
          chain := ⟨0, true, .json, none⟩ }
      (out, { reg with
                loggers := reg.loggers ++ [(name, out)]
                nextId := reg.nextId + 1 })

/-- `BaseLogger.Focus(names...)`: set `focused = true`, replace
`focusMap` with exactly the given names, and rebuild the chain of every
registered child and of the root. -/
def Focus (reg : Registry) (names : List String) : Registry :=
  { reg with
      focus := ⟨true, names⟩
      loggers := reg.loggers.map fun p => (p.1, configureLogger p.2)
      rootLogger := configureLogger reg.rootLogger }

/-- `BaseLogger.Unfocus()`: clear the flag and the map, rebuild every
chain. -/
def Unfocus (reg : Registry) : Registry :=
  { reg with
      focus := ⟨false, []⟩
      loggers := reg.loggers.map fun p => (p.1, configureLogger p.2)
      rootLogger := configureLogger reg.rootLogger }

/-- A receiver of a mutating per-logger call: the root logger or the
child registered under a name. -/
inductive Receiver where
  | root
  | child (name : String)
deriving DecidableEq, Repr

/-- `BaseLogger.WithLevel(level)`: set the receiver's own level and
rebuild only the receiver's own chain. -/
def WithLevel (reg : Registry) (recv : Receiver) (level : String) : Registry :=
  match recv with
  | .root => { reg with rootLogger := configureLogger { reg.rootLogger with level := level } }
  | .child n =>
      { reg with
          loggers := reg.loggers.map fun p =>
            if p.1 = n then (p.1, configureLogger { p.2 with level := level }) else p }

/-- `BaseLogger.WithLoggerType(loggerType)`: set the receiver's own
format and rebuild only the receiver's own chain. -/
def WithLoggerType (reg : Registry) (recv : Receiver) (loggerType : String) : Registry :=
  match recv with
  | .root => { reg with rootLogger := configureLogger { reg.rootLogger with loggerType := loggerType } }
  | .child n =>
      { reg with
          loggers := reg.loggers.map fun p =>
            if p.1 = n then (p.1, configureLogger { p.2 with loggerType := loggerType }) else p }

/-! ### Helper lemmas -/

/-- Once `errFound` is set, the rest of the `findError` loop keeps it. -/
theorem findErrorLoop_fst_eq (args : List GoVal) (found : Option GoError) :
    ∀ f, found = some f → (findErrorLoop args found).1 = some f := by
  induction args, found using findErrorLoop.induct with
  | case1 found => intro f h; simp [findErrorLoop, h]
  | case2 e rest found ih =>
      intro f h
      simp only [findErrorLoop]
      exact ih f h
  | case3 s e rest found hs ih =>
      intro f h
      simp only [findErrorLoop, if_neg hs]
      exact ih f h
  | case4 e rest ih =>
      intro f h
      exact absurd h (by simp)
  | case5 e rest f0 ih =>
      intro f h
      simp only [findErrorLoop]
      exact ih f h
  | case6 a rest found h1 h2 ih =>
      intro f h
      have h' := ih f h
      rcases a with s | e | ⟨k, v⟩ | n
      · cases rest with
        | nil => simp only [findErrorLoop] at h' ⊢; simp_all
        | cons b rest2 =>
            cases b with
            | err e2 => exact (h1 s e2 rest2 rfl rfl).elim
            | str s2 => simp only [findErrorLoop] at h' ⊢; simp_all
            | attrVal k2 v2 => simp only [findErrorLoop] at h' ⊢; simp_all
            | other n2 => simp only [findErrorLoop] at h' ⊢; simp_all
      · exact (h2 e rfl).elim
      · simp only [findErrorLoop] at h' ⊢; simp_all
      · simp only [findErrorLoop] at h' ⊢; simp_all

/-- When no argument is an error value the `findError` loop is the
identity: nothing is extracted, every argument lands in `remaining`. -/
theorem findErrorLoop_no_err (args : List GoVal) (found : Option GoError)
    (h : ∀ v ∈ args, v.isErr = false) :
    findErrorLoop args found = (found, args) := by
  induction args, found using findErrorLoop.induct with
  | case1 found => simp [findErrorLoop]
  | case2 e rest found ih =>
      exact absurd (h (.err e) (by simp)) (by simp [GoVal.isErr])
  | case3 s e rest found hs ih =>
      exact absurd (h (.err e) (by simp)) (by simp [GoVal.isErr])
  | case4 e rest ih =>
      exact absurd (h (.err e) (by simp)) (by simp [GoVal.isErr])
  | case5 e rest f0 ih =>
      exact absurd (h (.err e) (by simp)) (by simp [GoVal.isErr])
  | case6 a rest found h1 h2 ih =>
      have hrest : ∀ v ∈ rest, v.isErr = false := fun v hv => h v (by simp [hv])
      have h' := ih hrest
      rcases a with s | e | ⟨k, v⟩ | n
      · cases rest with
        | nil => simp [findErrorLoop]
        | cons b rest2 =>
            cases b with
            | err e2 => exact (h1 s e2 rest2 rfl rfl).elim
            | str s2 => simp only [findErrorLoop] at h' ⊢; simp_all
            | attrVal k2 v2 => simp only [findErrorLoop] at h' ⊢; simp_all
            | other n2 => simp only [findErrorLoop] at h' ⊢; simp_all
      · exact (h2 e rfl).elim
      · simp only [findErrorLoop] at h' ⊢; simp_all
      · simp only [findErrorLoop] at h' ⊢; simp_all

/-- The root-cause walk always lands on an unwrappable error. -/
theorem rootCause_isBase (e : GoError) : ∃ i c, rootCause e = .base i c := by
  induction e with
  | base i c => exact ⟨i, c, rfl⟩
  | wrap i c cause ih => simpa [rootCause] using ih

/-- A wrapped error is never its own root cause. -/
theorem rootCause_wrap_ne (i : Nat) (c : Option String) (e : GoError) :
    rootCause (.wrap i c e) ≠ .wrap i c e := by
  obtain ⟨j, d, hj⟩ := rootCause_isBase (GoError.wrap i c e)
  rw [hj]
  intro hc
  exact GoError.noConfusion hc

/-- `configureLogger` never changes the logger's name. -/
theorem configureLogger_name (st : LoggerState) :
    (configureLogger st).name = st.name := rfl

/-- Appending a fresh binding to an association list in which the key is
absent makes the key look up to the fresh binding. -/
theorem lookup_append_singleton (xs : List (String × LoggerState)) (n : String)
    (st : LoggerState) (h : xs.lookup n = none) :
    (xs ++ [(n, st)]).lookup n = some st := by
  induction xs with
  | nil => simp [List.lookup]
  | cons p xs ih =>
      obtain ⟨k, v⟩ := p
      by_cases hk : n = k
      · subst hk; simp [List.lookup] at h
      · simp only [List.cons_append, List.lookup,
          beq_eq_false_iff_ne.mpr hk] at h ⊢
        exact ih h

/-- A keyed in-place update of an association list does not change the
lookup of any other key. -/
theorem lookup_map_if_ne (xs : List (String × LoggerState)) (n m : String)
    (f : LoggerState → LoggerState) (h : m ≠ n) :
    (xs.map fun p => if p.1 = n then (p.1, f p.2) else p).lookup m
      = xs.lookup m := by
  induction xs with
  | nil => simp
  | cons p xs ih =>
      obtain ⟨k, v⟩ := p
      simp only [List.map_cons]
      by_cases hk : k = n
      · rw [if_pos (show (k, v).1 = n from hk)]
        have hmk : m ≠ k := fun hmk => h (hmk.trans hk)
        simp only [List.lookup, beq_eq_false_iff_ne.mpr hmk]
        exact ih
      · rw [if_neg (show ¬ (k, v).1 = n from hk)]
        by_cases hm : m = k
        · subst hm; simp [List.lookup]
        · simp only [List.lookup, beq_eq_false_iff_ne.mpr hm]
          exact ih

/-- Reconfiguring every entry of the registry map commutes with lookup. -/
theorem lookup_map_configure (xs : List (String × LoggerState)) (m : String) :
    (xs.map fun p => (p.1, configureLogger p.2)).lookup m
      = (xs.lookup m).map configureLogger := by
  induction xs with
  | nil => simp
  | cons p xs ih =>
      obtain ⟨k, v⟩ := p
      by_cases hm : m = k
      · subst hm; simp [List.lookup]
      · simp only [List.map_cons, List.lookup,
          beq_eq_false_iff_ne.mpr hm]
        exact ih

/-! ### Claims -/

/-- C6: severity-name resolution is case-insensitive (it depends only on
the uppercased form) and fails soft: every name not recognized after
uppercasing resolves to the info rank, so a logger configured with
"BOGUS" filters records identically to one configured with "INFO". -/
theorem getLevel_case_insensitive_fail_soft :
    (∀ s t : String, goToUpper s = goToUpper t → getLevel s = getLevel t)
  ∧ (∀ s : String, goToUpper s ∉ knownLevelNames → getLevel s = LevelInfo)
  ∧ getLevel "BOGUS" = getLevel "INFO"
  ∧ (∀ r : Int, levelEnabled (getLevel "BOGUS") r = levelEnabled (getLevel "INFO") r) := by
  have h2 : ∀ s : String, goToUpper s ∉ knownLevelNames → getLevel s = LevelInfo := by
    intro s hs
    simp only [knownLevelNames, List.mem_cons, List.not_mem_nil, or_false, not_or] at hs
    obtain ⟨h1, h2, h3, h4, h5⟩ := hs
    simp [getLevel, h1, h2, h3, h4, h5]
  have h3 : getLevel "BOGUS" = getLevel "INFO" := by decide
  refine ⟨?_, h2, h3, ?_⟩
  · intro s t h
    simp only [getLevel, h]
  · intro r
    rw [h3]

/-- C6 witness: "warn" and "WARN" resolve identically, and "BOGUS"
resolves to the info rank. -/
theorem getLevel_case_insensitive_fail_soft_witness :
    getLevel "warn" = getLevel "WARN" ∧ getLevel "BOGUS" = LevelInfo :=
  ⟨getLevel_case_insensitive_fail_soft.1 "warn" "WARN" (by decide),
   getLevel_case_insensitive_fail_soft.2.1 "BOGUS" (by decide)⟩

/-- C10: the strings "FATAL" and "SUCCESS" are not recognized by
`getLevel` although both name defined severity constants with dedicated
ranks distinct from info; both resolve to the info rank, so a logger
configured with "FATAL" filters exactly like one configured with
"INFO". -/
theorem fatal_success_unrecognized :
    getLevel "FATAL" = LevelInfo
  ∧ getLevel "SUCCESS" = LevelInfo
  ∧ LevelFatal ≠ LevelInfo
  ∧ LevelSuccess ≠ LevelInfo
  ∧ getLevel "FATAL" ≠ LevelFatal
  ∧ getLevel "SUCCESS" ≠ LevelSuccess
  ∧ getLevel "FATAL" = getLevel "INFO"
  ∧ (∀ r : Int, levelEnabled (getLevel "FATAL") r = levelEnabled (getLevel "INFO") r) := by
  refine ⟨by decide, by decide, by decide, by decide, by decide, by decide, by decide, ?_⟩
  intro r
  rw [show getLevel "FATAL" = getLevel "INFO" by decide]

/-- C9: `Fatal(msg, args...)` produces exactly the emission of
`Error(msg, args...)` followed by process termination with code 1 as its
final effect — nothing after the exit. -/
theorem fatal_is_error_then_exit (msg stack : String) (args : List GoVal) :
    FatalEffects msg stack args = ErrorEffects msg stack args ++ [.exit 1]
  ∧ FatalEffects msg stack args = [.log (ErrorCall msg stack args), .exit 1]
  ∧ (FatalEffects msg stack args).getLast? = some (.exit 1) := by
  refine ⟨rfl, rfl, ?_⟩
  simp [FatalEffects, ErrorEffects]

/-- C7: when the attached logger's name is not permitted by the current
focus state, `FocusFilterHandler.Handle` returns success and does not
forward the record to the inner handler. -/
theorem focusHandle_drop (fs : FocusState) (name : String)
    (inner : LogRecord → Option String) (r : LogRecord)
    (h : isFocused fs name = false) :
    FocusFilterHandler.Handle fs name inner r = ⟨none, false⟩ := by
  simp [FocusFilterHandler.Handle, h]

/-- C7 witness: with focus enabled on "a" only, a record on logger "b" is
dropped silently even though the inner handler would fail. -/
theorem focusHandle_drop_witness :
    FocusFilterHandler.Handle ⟨true, ["a"]⟩ "b" (fun _ => some "boom") ⟨0, "m"⟩
      = ⟨none, false⟩ :=
  focusHandle_drop ⟨true, ["a"]⟩ "b" (fun _ => some "boom") ⟨0, "m"⟩ (by decide)

/-- C2 counterexample: after `Focus("a")` on a fresh registry, the focus
predicate evaluated for the root/unnamed logger returns false — the root
logger is not exempt from focus filtering. -/
theorem root_focus_counterexample :
    isFocused (Focus NewLoggerDefault ["a"]).focus
      (Focus NewLoggerDefault ["a"]).rootLogger.name = false := by decide

/-- C2 amended: the root/unnamed logger passes the focus predicate iff
focus is disabled or the empty name is among the allowed names; with
enabled focus whose allowed set does not contain the empty name, the
root logger is rejected like any other non-allowed logger, and after
`Unfocus` (or with focus never enabled) it passes again. -/
theorem root_focus_amended (reg : Registry) (names : List String)
    (hroot : reg.rootLogger.name = "")
    (hnames : names.contains "" = false) :
    ((Focus reg names).rootLogger.name = reg.rootLogger.name)
  ∧ (isFocused (Focus reg names).focus (Focus reg names).rootLogger.name = false)
  ∧ (isFocused (Unfocus reg).focus (Unfocus reg).rootLogger.name = true)
  ∧ (reg.focus.focused = false → isFocused reg.focus reg.rootLogger.name = true) := by
  refine ⟨rfl, ?_, ?_, ?_⟩
  · show isFocused ⟨true, names⟩ (configureLogger reg.rootLogger).name = false
    rw [configureLogger_name, hroot]
    simpa [isFocused] using hnames
  · simp [Unfocus, isFocused]
  · intro h
    simp [isFocused, h]

/-- C2 amended witness: concrete fresh registry, `Focus("a")` rejects the
root, `Unfocus` readmits it. -/
theorem root_focus_amended_witness :
    isFocused (Focus NewLoggerDefault ["a"]).focus
      (Focus NewLoggerDefault ["a"]).rootLogger.name = false
  ∧ isFocused (Unfocus NewLoggerDefault).focus
      (Unfocus NewLoggerDefault).rootLogger.name = true := by
  have h := root_focus_amended NewLoggerDefault ["a"] (by decide) (by decide)
  exact ⟨h.2.1, h.2.2.1⟩

/-- The loop of `argsToAttrSlice` expressed through `argsToAttr`: the
fold interprets the list left to right, one `argsToAttr` step at a
time. -/
theorem argsToAttrSlice_cons (a : GoVal) (rest : List GoVal) :
    argsToAttrSlice (a :: rest) =
      (argsToAttr a rest).1 :: argsToAttrSlice (argsToAttr a rest).2 := by
  cases a with
  | str s => cases rest <;> simp [argsToAttrSlice, argsToAttr]
  | err e => simp [argsToAttrSlice, argsToAttr]
  | attrVal k v => simp [argsToAttrSlice, argsToAttr]
  | other n => simp [argsToAttrSlice, argsToAttr]

/-- The pairing fold never produces more attributes than arguments. -/
theorem argsToAttrSlice_length (args : List GoVal) :
    (argsToAttrSlice args).length ≤ args.length := by
  induction args using argsToAttrSlice.induct with
  | case1 => simp [argsToAttrSlice]
  | case2 s => simp [argsToAttrSlice]
  | case3 s v rest ih => simp only [argsToAttrSlice, List.length_cons]; omega
  | case4 k v rest ih => simp only [argsToAttrSlice, List.length_cons]; omega
  | case5 e rest ih => simp only [argsToAttrSlice, List.length_cons]; omega
  | case6 n rest ih => simp only [argsToAttrSlice, List.length_cons]; omega

/-- Every output of the pairing fold is an attribute. -/
theorem argsToAttrSlice_all_attr (args : List GoVal) :
    (argsToAttrSlice args).all GoVal.isAttr = true := by
  induction args using argsToAttrSlice.induct with
  | case1 => simp [argsToAttrSlice]
  | case2 s => simp [argsToAttrSlice, GoVal.isAttr]
  | case3 s v rest ih => simpa [argsToAttrSlice, GoVal.isAttr] using ih
  | case4 k v rest ih => simpa [argsToAttrSlice, GoVal.isAttr] using ih
  | case5 e rest ih => simpa [argsToAttrSlice, GoVal.isAttr] using ih
  | case6 n rest ih => simpa [argsToAttrSlice, GoVal.isAttr] using ih

/-- C8: the pairing algorithm interprets arguments left to right — a
string immediately followed by any value becomes a named field consuming
both, a lone trailing string becomes the bad-key placeholder field, a
pre-built attribute passes through unchanged consuming one argument, any
other value becomes a bad-key field — and the fold is total: it consumes
the whole list step by step and produces only attributes, never more
than one per argument. -/
theorem args_pairing (a : GoVal) (s : String) (v : GoVal) (k : String)
    (w : GoVal) (e : GoError) (n : Nat) (rest args : List GoVal) :
    (argsToAttr (.str s) (v :: rest) = (.attrVal s v, rest))
  ∧ (argsToAttr (.str s) [] = (.attrVal badKey (.str s), []))
  ∧ (argsToAttr (.attrVal k w) rest = (.attrVal k w, rest))
  ∧ (argsToAttr (.err e) rest = (.attrVal badKey (.err e), rest))
  ∧ (argsToAttr (.other n) rest = (.attrVal badKey (.other n), rest))
  ∧ (argsToAttrSlice [] = [])
  ∧ (argsToAttrSlice (a :: args)
      = (argsToAttr a args).1 :: argsToAttrSlice (argsToAttr a args).2)
  ∧ ((argsToAttrSlice args).length ≤ args.length)
  ∧ ((argsToAttrSlice args).all GoVal.isAttr = true) :=
  ⟨rfl, rfl, rfl, rfl, rfl, rfl, argsToAttrSlice_cons a args,
   argsToAttrSlice_length args, argsToAttrSlice_all_attr args⟩

/-- C4 counterexample: with arguments `["error", e1, e2]` the extraction
does not prefer the error keyed `"error"` — it extracts the bare `e2` and
keeps the keyed pair in place; and an error implementing `coder` makes
the emission append four derived fields, not at most three. -/
theorem error_extraction_counterexample :
    ((findError [.str "error", .err (.base 1 none), .err (.base 2 none)]).1
      = some (.base 2 none))
  ∧ (GoError.base 2 none ≠ GoError.base 1 none)
  ∧ ((findError [.str "error", .err (.base 1 none), .err (.base 2 none)]).2
      = [.str "error", .err (.base 1 none)])
  ∧ ((ErrorCall "m" "stk" [.err (.wrap 3 (some "E42") (.base 4 none))]).args.length
      = 4) := by decide

/-- C4 amended: `Error(msg, args...)` extracts the first bare
(positionally passed) error argument — a consecutive `("error", err)`
pair is preserved in the argument list and never extracted — walks the
extracted error's wrapped-cause chain to its root, and appends up to
four derived fields: an `error_code` field when the error carries a
code, a `root_error` field only when the root cause is distinct from
the immediate error (a depth-1 chain appends none), the immediate
`error` field, and a `stack` snapshot; when no argument is an error, no
derived fields are appended and the arguments pass unchanged. -/
theorem error_enrichment_amended (msg stack : String) (args : List GoVal) :
    ((args.all fun v => !v.isErr) = true →
      ErrorCall msg stack args = ⟨LevelError, msg, args⟩)
  ∧ (∀ e rest, findError (.str "error" :: .err e :: rest)
      = ((findError rest).1, .str "error" :: .err e :: (findError rest).2))
  ∧ (∀ e rest, (findError (.err e :: rest)).1 = some e)
  ∧ (∀ e, (findError args).1 = some e →
      ErrorCall msg stack args = ⟨LevelError, msg,
        (findError args).2
          ++ (match e.getCode with
              | some c => [.attrVal "error_code" (.str c)]
              | none => [])
          ++ (if rootCause e ≠ e
              then [.attrVal "root_error" (.err (rootCause e))]
              else [])
          ++ [.attrVal "error" (.err e), .attrVal "stack" (.str stack)]⟩)
  ∧ ((findError args).1 = none →
      ErrorCall msg stack args = ⟨LevelError, msg, (findError args).2⟩)
  ∧ (∀ i c, rootCause (.base i c) = .base i c)
  ∧ (∀ i c e, rootCause (.wrap i c e) ≠ .wrap i c e) := by
  refine ⟨?_, ?_, ?_, ?_, ?_, fun i c => rfl, rootCause_wrap_ne⟩
  · intro hall
    have hne : ∀ v ∈ args, v.isErr = false := by
      intro v hv
      have := List.all_eq_true.mp hall v hv
      simpa using this
    have hfe : findError args = (none, args) :=
      findErrorLoop_no_err args none hne
    simp [ErrorCall, hfe]
  · intro e rest
    simp [findError, findErrorLoop]
  · intro e rest
    have h1 : findError (.err e :: rest) = findErrorLoop rest (some e) := by
      simp [findError, findErrorLoop]
    rw [h1]
    exact findErrorLoop_fst_eq rest (some e) e rfl
  · intro e he
    rcases hfe : findError args with ⟨f, rem⟩
    rw [hfe] at he
    simp only at he
    subst he
    cases hc : e.getCode with
    | none =>
        by_cases hr : rootCause e ≠ e <;>
          simp [ErrorCall, hfe, hc, hr, List.append_assoc]
    | some c =>
        by_cases hr : rootCause e ≠ e <;>
          simp [ErrorCall, hfe, hc, hr, List.append_assoc]
  · intro he
    rcases hfe : findError args with ⟨f, rem⟩
    rw [hfe] at he
    simp only at he
    subst he
    simp [ErrorCall, hfe]

/-- C4 amended witness: concrete checks — a no-error argument list passes
unchanged, and a wrapped coded error yields the exact four appended
fields. -/
theorem error_enrichment_amended_witness :
    ErrorCall "m" "stk" [.str "k", .other 5]
      = ⟨LevelError, "m", [.str "k", .other 5]⟩
  ∧ ErrorCall "m" "stk" [.err (.wrap 3 (some "E42") (.base 4 none))]
      = ⟨LevelError, "m",
          [.attrVal "error_code" (.str "E42"),
           .attrVal "root_error" (.err (.base 4 none)),
           .attrVal "error" (.err (.wrap 3 (some "E42") (.base 4 none))),
           .attrVal "stack" (.str "stk")]⟩ := by
  constructor
  · exact (error_enrichment_amended "m" "stk" [.str "k", .other 5]).1 (by decide)
  · have h := (error_enrichment_amended "m" "stk"
      [.err (.wrap 3 (some "E42") (.base 4 none))]).2.2.2.1
      (.wrap 3 (some "E42") (.base 4 none)) (by decide)
    rw [h]
    decide

/-- After any `GetLogger` call the requested name looks up to the
returned instance. -/
theorem getLogger_lookup_self (reg : Registry) (c : LoggerState) (name : String) :
    ((GetLogger reg c name).2).loggers.lookup name
      = some (GetLogger reg c name).1 := by
  rcases h : reg.loggers.lookup name with _ | l
  · simp only [GetLogger, h]
    exact lookup_append_singleton reg.loggers name _ h
  · simp only [GetLogger, h]

/-- C1: `GetLogger` is memoized — a second `GetLogger(N)` call, from any
logger sharing the registry, returns exactly the instance the first call
returned and leaves the registry unchanged (no second construction), and
a call that finds N already registered returns the existing instance
with the registry untouched. -/
theorem getLogger_memoized (reg : Registry) (c c' : LoggerState) (name : String) :
    (GetLogger (GetLogger reg c name).2 c' name
      = ((GetLogger reg c name).1, (GetLogger reg c name).2))
  ∧ (∀ l, reg.loggers.lookup name = some l → GetLogger reg c name = (l, reg)) := by
  constructor
  · have h2 := getLogger_lookup_self reg c name
    rcases hr : GetLogger reg c name with ⟨l1, reg1⟩
    rw [hr] at h2
    simp only at h2 ⊢
    simp [GetLogger, h2]
  · intro l hl
    simp [GetLogger, hl]

/-- C1 witness: two `GetLogger("db")` calls on a fresh registry — the
second returns the first call's instance and does not modify the
registry. -/
theorem getLogger_memoized_witness :
    GetLogger (GetLogger NewLoggerDefault NewLoggerDefault.rootLogger "db").2
      NewLoggerDefault.rootLogger "db"
      = ((GetLogger NewLoggerDefault NewLoggerDefault.rootLogger "db").1,
         (GetLogger NewLoggerDefault NewLoggerDefault.rootLogger "db").2) := by
  have h := getLogger_memoized
    (GetLogger NewLoggerDefault NewLoggerDefault.rootLogger "db").2
    NewLoggerDefault.rootLogger NewLoggerDefault.rootLogger "db"
  exact h.2 (GetLogger NewLoggerDefault NewLoggerDefault.rootLogger "db").1 (by decide)

/-- C3: `Focus(names...)` enables focus and replaces the allowed set with
exactly the given names (a second call overwrites the previous set);
afterwards a named logger passes the focus predicate iff its name is
among the given names; `Unfocus()` readmits every logger; and the effect
reaches loggers registered before the `Focus` call — their registry
entries are reconfigured in place, keeping their names, with no
re-registration. -/
theorem focus_replaces_and_repropagates (reg : Registry)
    (names prev : List String) (nm : String) :
    ((Focus reg names).focus.focused = true)
  ∧ ((Focus reg names).focus.focusMap = names)
  ∧ ((Focus (Focus reg prev) names).focus = ⟨true, names⟩)
  ∧ (nm ≠ "" → (isFocused (Focus reg names).focus nm = true ↔ nm ∈ names))
  ∧ (isFocused (Unfocus (Focus reg names)).focus nm = true)
  ∧ (∀ st, reg.loggers.lookup nm = some st →
      (Focus reg names).loggers.lookup nm = some (configureLogger st)
      ∧ (configureLogger st).name = st.name
      ∧ (st.name ≠ "" →
          (isFocused (Focus reg names).focus st.name = true ↔ st.name ∈ names))) := by
  refine ⟨rfl, rfl, rfl, ?_, ?_, ?_⟩
  · intro hnm
    simp [Focus, isFocused]
  · simp [Unfocus, isFocused]
  · intro st hst
    refine ⟨?_, configureLogger_name st, ?_⟩
    · show (reg.loggers.map fun p => (p.1, configureLogger p.2)).lookup nm
        = some (configureLogger st)
      rw [lookup_map_configure, hst]
      rfl
    · intro hne
      simp [Focus, isFocused]

/-- C3 witness: with a child "b" registered before the call, `Focus("a")`
gives the iff for "b" and reconfigures "b"'s existing registry entry. -/
theorem focus_replaces_and_repropagates_witness :
    (isFocused
        (Focus (GetLogger NewLoggerDefault NewLoggerDefault.rootLogger "b").2
          ["a"]).focus "b" = true
      ↔ "b" ∈ ["a"])
  ∧ ((Focus (GetLogger NewLoggerDefault NewLoggerDefault.rootLogger "b").2
        ["a"]).loggers.lookup "b"
      = some (configureLogger
          (GetLogger NewLoggerDefault NewLoggerDefault.rootLogger "b").1)) := by
  have h := focus_replaces_and_repropagates
    (GetLogger NewLoggerDefault NewLoggerDefault.rootLogger "b").2 ["a"] ["z"] "b"
  exact ⟨h.2.2.2.1 (by decide), (h.2.2.2.2.2 _ (by decide)).1⟩

/-- C5: `WithLevel` and `WithLoggerType` on a child mutate only that
child — every other registered logger's full state (level, format,
chain) and the root logger and focus state are unchanged — and on the
root they leave every registered child and the focus state unchanged. -/
theorem withLevel_withLoggerType_local (reg : Registry)
    (n lvl fmt m : String) (hm : m ≠ n) :
    ((WithLevel reg (.child n) lvl).loggers.lookup m = reg.loggers.lookup m)
  ∧ ((WithLevel reg (.child n) lvl).rootLogger = reg.rootLogger)
  ∧ ((WithLevel reg (.child n) lvl).focus = reg.focus)
  ∧ ((WithLoggerType reg (.child n) fmt).loggers.lookup m = reg.loggers.lookup m)
  ∧ ((WithLoggerType reg (.child n) fmt).rootLogger = reg.rootLogger)
  ∧ ((WithLoggerType reg (.child n) fmt).focus = reg.focus)
  ∧ ((WithLevel reg .root lvl).loggers = reg.loggers)
  ∧ ((WithLevel reg .root lvl).focus = reg.focus)
  ∧ ((WithLoggerType reg .root fmt).loggers = reg.loggers)
  ∧ ((WithLoggerType reg .root fmt).focus = reg.focus) := by
  refine ⟨?_, rfl, rfl, ?_, rfl, rfl, rfl, rfl, rfl, rfl⟩
  · exact lookup_map_if_ne reg.loggers n m
      (fun st => configureLogger { st with level := lvl }) hm
  · exact lookup_map_if_ne reg.loggers n m
      (fun st => configureLogger { st with loggerType := fmt }) hm

/-- C5 witness: changing child "b"'s level does not touch the lookup of
sibling name "x". -/
theorem withLevel_withLoggerType_local_witness :
    (WithLevel (GetLogger NewLoggerDefault NewLoggerDefault.rootLogger "b").2
        (.child "b") "DEBUG").loggers.lookup "x"
      = (GetLogger NewLoggerDefault NewLoggerDefault.rootLogger "b").2.loggers.lookup "x" :=
  (withLevel_withLoggerType_local
    (GetLogger NewLoggerDefault NewLoggerDefault.rootLogger "b").2
    "b" "DEBUG" "json" "x" (by decide)).1

end Glog
